import Mathlib

/-!
# Verification of the High-Performance Trade Simulator core

Shallow embedding of the streaming order-book state manager and the
cost-estimation model pipeline (`src/data/orderbook.py`,
`src/models/{slippage,fees,market_impact,maker_taker,simulator}.py`).

Numeric values (Python floats, decimal strings) are modelled as exact
rationals `ℚ`.  Price/size strings of the wire format are modelled by
`PStr`: either a numeric token carrying its parsed rational value, or a
token on which Python's `float()` raises.  Python `try/except` blocks are
modelled by `Option`/`Except`-valued bodies whose caller installs the
documented default on failure; code that lets exceptions escape is modelled
with an `Except Unit` result.  The external ML library (scikit-learn
`LinearRegression.fit/predict`, `LogisticRegression.fit/predict_proba`) and
the transcendental primitives `np.log1p`/`np.sqrt` are opaque to the
source's own logic and are modelled as an abstract total `Oracle`.
-/

namespace TradeSim

/-- A price or size string of the wire format: either a token that
`float()` parses to the rational `q`, or a token on which `float()`
raises `ValueError`. -/
inductive PStr where
  | num (q : ℚ)
  | bad
deriving DecidableEq, Repr

/-- `float(s)` on a wire token: the parsed value, or `none` when the
conversion raises. -/
def parseQ : PStr → Option ℚ
  | .num q => some q
  | .bad => none

/-- One ladder level as stored by the book: (price string, size string). -/
abbrev Lv := PStr × PStr

/-- Sort key of a level (`float(x[0])`); only meaningful on levels whose
price parses, which every sorting path checks first. -/
def keyD (l : Lv) : ℚ := (parseQ l.1).getD 0

/-- Stable insertion placing `x` before the first `y` it may precede.
`r x y = true` means `x` may come before `y`. -/
def insertOrd (r : Lv → Lv → Bool) (x : Lv) : List Lv → List Lv
  | [] => [x]
  | y :: ys => if r x y then x :: y :: ys else y :: insertOrd r x ys

/-- Stable sort under `r` (Python's `sorted` is a stable sort). -/
def sortOrd (r : Lv → Lv → Bool) : List Lv → List Lv
  | [] => []
  | x :: xs => insertOrd r x (sortOrd r xs)

/-- `x` may precede `y` in a descending sort (`reverse=True`): key no
smaller; ties keep input order because the earlier element is inserted
in front of its equals. -/
def descR (x y : Lv) : Bool := decide (keyD y ≤ keyD x)

/-- `x` may precede `y` in an ascending sort. -/
def ascR (x y : Lv) : Bool := decide (keyD x ≤ keyD y)

/-- `sorted(levels, key=lambda x: float(x[0]), ...)`: Python first
computes every key (raising on the first unparseable price, before any
element is moved), then stably sorts.  `none` models the raised
`ValueError`. -/
def sortLv (r : Lv → Lv → Bool) (L : List Lv) : Option (List Lv) :=
  if L.all (fun l => (parseQ l.1).isSome) then some (sortOrd r L) else none

/-- The book state held by `OrderBook` (`orderbook.py`). -/
structure OrderBook where
  bids : List Lv
  asks : List Lv
  timestamp : String
  exchange : String
  symbol : String
  last_update_time : ℚ
  update_count : ℕ
deriving DecidableEq, Repr

/-- `OrderBook.__init__`. -/
def OrderBook.init : OrderBook := ⟨[], [], "", "", "", 0, 0⟩

/-- An inbound snapshot message (a decoded JSON dict): `none` models a
missing key. -/
structure Snapshot where
  timestamp : Option String
  exchange : Option String
  symbol : Option String
  bids : Option (List Lv)
  asks : Option (List Lv)
deriving DecidableEq, Repr

/-- `OrderBook.update(data)`.  The whole body runs under `try/except`;
on an exception the method logs and returns, keeping every assignment
made before the failing statement.  `t` is the wall-clock reading taken
at entry (`start_time`). -/
def OrderBook.update (b : OrderBook) (data : Snapshot) (t : ℚ) : OrderBook :=
  -- self.timestamp/exchange/symbol = data.get(..., "")
  let b1 : OrderBook :=
    { b with
      timestamp := data.timestamp.getD ""
      exchange := data.exchange.getD ""
      symbol := data.symbol.getD "" }
  -- if "bids" in data: self.bids = data["bids"]  (and likewise asks)
  let b2 : OrderBook := { b1 with bids := data.bids.getD b1.bids }
  let b3 : OrderBook := { b2 with asks := data.asks.getD b2.asks }
  -- self.bids = sorted(self.bids, key=float(price), reverse=True)
  match sortLv descR b3.bids with
  | none => b3
  | some sb =>
    let b4 : OrderBook := { b3 with bids := sb }
    -- self.asks = sorted(self.asks, key=float(price))
    match sortLv ascR b4.asks with
    | none => b4
    | some sa =>
      let b5 : OrderBook := { b4 with asks := sa }
      { b5 with last_update_time := t, update_count := b5.update_count + 1 }

/-!  Read accessors of `OrderBook`.  They parse prices/sizes without any
`try`, so an unparseable token propagates an exception to the caller:
that possibility is the `Except Unit` error case.  The inner `Option`
of the mid/spread family is Python's `None` ("unavailable"). -/

/-- `OrderBook.get_mid_price`. -/
def OrderBook.get_mid_price (b : OrderBook) : Except Unit (Option ℚ) :=
  match b.bids, b.asks with
  | [], _ => .ok none
  | _, [] => .ok none
  | bl :: _, al :: _ =>
    match parseQ bl.1, parseQ al.1 with
    | some bb, some ba => .ok (some ((bb + ba) / 2))
    | _, _ => .error ()

/-- `OrderBook.get_spread`. -/
def OrderBook.get_spread (b : OrderBook) : Except Unit (Option ℚ) :=
  match b.bids, b.asks with
  | [], _ => .ok none
  | _, [] => .ok none
  | bl :: _, al :: _ =>
    match parseQ bl.1, parseQ al.1 with
    | some bb, some ba => .ok (some (ba - bb))
    | _, _ => .error ()

/-- `OrderBook.get_spread_percentage`; `(spread / mid_price) * 100`
raises `ZeroDivisionError` when the mid price is zero. -/
def OrderBook.get_spread_percentage (b : OrderBook) : Except Unit (Option ℚ) := do
  let m ← b.get_mid_price
  let s ← b.get_spread
  match m, s with
  | some mv, some sv =>
    if mv = 0 then .error () else .ok (some (sv / mv * 100))
  | _, _ => .ok none

/-- Sum of `float(size)` over a (already truncated) list of levels;
errors on the first unparseable size. -/
def sumSizesE : List Lv → Except Unit ℚ
  | [] => .ok 0
  | l :: ls =>
    match parseQ l.2 with
    | some s => (sumSizesE ls).map (fun t => s + t)
    | none => .error ()

/-- `OrderBook.get_depth(price_levels)`: totals of the top-`n` sizes,
bids first (returned as the pair (bids total, asks total)). -/
def OrderBook.get_depth (b : OrderBook) (n : ℕ) : Except Unit (ℚ × ℚ) := do
  let bd ← sumSizesE (b.bids.take n)
  let ad ← sumSizesE (b.asks.take n)
  pure (bd, ad)

/-- `OrderBook.get_orderbook_imbalance`. -/
def OrderBook.get_orderbook_imbalance (b : OrderBook) : Except Unit ℚ := do
  let d ← b.get_depth 5
  let total := d.1 + d.2
  if total = 0 then pure (1/2) else pure (d.1 / total)

/-!  The VWAP walk.  `fillQ` is the numeric core of one side's loop in
`OrderBook.get_vwap`: it returns `(total_cost, remaining_qty)`.  The
Python loop converts the current level's price and size *before* the
`remaining_qty <= 0` break check; `fillStr` mirrors that on raw levels.
-/

/-- One side's fill loop over parsed levels: accumulated
`executed_qty * price` and the remaining quantity. -/
def fillQ : List (ℚ × ℚ) → ℚ → ℚ × ℚ
  | [], r => (0, r)
  | l :: ls, r =>
    if r ≤ 0 then (0, r)
    else
      let e := min r l.2
      let res := fillQ ls (r - e)
      (e * l.1 + res.1, res.2)

/-- One side's fill loop over raw levels, converting each visited
level's price and size first (raising on a bad token) and only then
testing the break condition. -/
def fillStr : List Lv → ℚ → Except Unit (ℚ × ℚ)
  | [], r => .ok (0, r)
  | l :: ls, r =>
    match parseQ l.1, parseQ l.2 with
    | some p, some s =>
      if r ≤ 0 then .ok (0, r)
      else
        let e := min r s
        (fillStr ls (r - e)).map (fun res => (e * p + res.1, res.2))
    | _, _ => .error ()

/-- Total cost of one side's walk (parsed levels). -/
def costQ (L : List (ℚ × ℚ)) (r : ℚ) : ℚ := (fillQ L r).1

/-- Remaining quantity after one side's walk (parsed levels). -/
def remQ (L : List (ℚ × ℚ)) (r : ℚ) : ℚ := (fillQ L r).2

/-- Quantity actually filled by one side's walk. -/
def filledQ (L : List (ℚ × ℚ)) (r : ℚ) : ℚ := r - remQ L r

/-- One side's VWAP over parsed levels: `total_cost / (quantity -
remaining_qty)` when anything was filled, else the `0.0` the result dict
was initialised with. -/
def sideVwapQ (L : List (ℚ × ℚ)) (q : ℚ) : ℚ :=
  if remQ L q < q then costQ L q / (q - remQ L q) else 0

/-- One side's VWAP over raw levels. -/
def sideVwapStr (L : List Lv) (q : ℚ) : Except Unit ℚ :=
  (fillStr L q).map (fun res => if res.2 < q then res.1 / (q - res.2) else 0)

/-- The dict returned by `OrderBook.get_vwap`. -/
structure VwapRes where
  bid_vwap : ℚ
  ask_vwap : ℚ
deriving DecidableEq, Repr

/-- `OrderBook.get_vwap(quantity)`: the bid walk runs first, so its
exception pre-empts the ask walk. -/
def OrderBook.get_vwap (b : OrderBook) (quantity : ℚ) : Except Unit VwapRes := do
  let bv ← sideVwapStr b.bids quantity
  let av ← sideVwapStr b.asks quantity
  pure ⟨bv, av⟩

/-- Total size on one side (parsed levels). -/
def sumSize (L : List (ℚ × ℚ)) : ℚ := (L.map Prod.snd).sum

/-- Total `price * size` on one side (parsed levels). -/
def sumCost (L : List (ℚ × ℚ)) : ℚ := (L.map (fun l => l.1 * l.2)).sum

/-- Embed a parsed level into the raw representation. -/
def numLv (l : ℚ × ℚ) : Lv := (PStr.num l.1, PStr.num l.2)

/-- A book whose every token is numeric, for claims that presuppose a
parseable book. -/
def numBook (bids asks : List (ℚ × ℚ)) : OrderBook :=
  ⟨bids.map numLv, asks.map numLv, "", "", "", 0, 0⟩

/-- Price-negated side: turns a descending bid ladder into an ascending
one with the same sizes (proof device relating the two sides' walks). -/
def negP (L : List (ℚ × ℚ)) : List (ℚ × ℚ) := L.map (fun l => (-l.1, l.2))

/-- The dict built by `OrderBook.get_data_for_models`.  `best_bid`,
`best_ask` and the vwap ladder are keys it writes only when both sides
are non-empty; no model reads them. -/
structure FeatCore where
  mid_price : ℚ
  spread : ℚ
  spread_pct : ℚ
  bid_depth : ℚ
  ask_depth : ℚ
  depth_ratio : ℚ
  imbalance : ℚ
  best_bid : Option ℚ
  best_ask : Option ℚ
  vwap_ladder : List (ℚ × ℚ)
deriving DecidableEq, Repr

/-- `OrderBook.get_data_for_models`; runs without a `try`, so a bad
token anywhere on the visited ladder propagates (error case). -/
def OrderBook.get_data_for_models (b : OrderBook) : Except Unit FeatCore := do
  let m ← b.get_mid_price
  let s ← b.get_spread
  let sp ← b.get_spread_percentage
  let d ← b.get_depth 5
  let dr := if 0 < d.2 then d.1 / d.2 else 1
  let imb ← b.get_orderbook_imbalance
  match b.bids, b.asks with
  | bl :: _, al :: _ =>
    match parseQ bl.1, parseQ al.1 with
    | some bb, some ba => do
      let ladder ← ([1, 5, 10, 50, 100] : List ℚ).mapM
        (fun k => (b.get_vwap k).map (fun v => (v.bid_vwap, v.ask_vwap)))
      pure ⟨m.getD 0, s.getD 0, sp.getD 0, d.1, d.2, dr, imb, some bb, some ba, ladder⟩
    | _, _ => .error ()
  | _, _ => pure ⟨m.getD 0, s.getD 0, sp.getD 0, d.1, d.2, dr, imb, none, none, []⟩

/-- The feature dict a model receives: the book-derived keys plus the
simulation parameters added in `_run_models`.  `none` models a missing
key (`data[k]` raising `KeyError`). -/
structure FeatData where
  mid_price : Option ℚ
  spread : Option ℚ
  spread_pct : Option ℚ
  bid_depth : Option ℚ
  ask_depth : Option ℚ
  depth_ratio : Option ℚ
  imbalance : Option ℚ
  quantity : Option ℚ
  volatility : Option ℚ
  order_type : Option String
deriving DecidableEq, Repr

/-- The dict passed to the models by `_run_models`: the book data with
`quantity`, `volatility`, `order_type` added. -/
def FeatCore.toData (c : FeatCore) (q vol : ℚ) (ot : String) : FeatData :=
  ⟨some c.mid_price, some c.spread, some c.spread_pct, some c.bid_depth,
   some c.ask_depth, some c.depth_ratio, some c.imbalance, some q, some vol, some ot⟩

/-- The external numeric/ML primitives the models call: `np.log1p`,
`np.sqrt`, `LinearRegression.fit` (as the predictor it produces) and
`LogisticRegression.fit` (as the `predict_proba[·][1]` it produces).
They are total functions opaque to the source's own logic. -/
structure Oracle where
  log1p : ℚ → ℚ
  sqrtFn : ℚ → ℚ
  fitLin : List (List ℚ) → List ℚ → (List ℚ → ℚ)
  fitLog : List (List ℚ) → List ℕ → (List ℚ → ℚ)

/-- Python float division: raises `ZeroDivisionError` on a zero
divisor. -/
def pdiv (a b : ℚ) : Option ℚ := if b = 0 then none else some (a / b)

/-- State of `SlippageModel`. -/
structure SlippageModel where
  modelFn : List ℚ → ℚ
  is_trained : Bool
  training_data_x : List (List ℚ)
  training_data_y : List ℚ

/-- `SlippageModel.__init__`. -/
def SlippageModel.init : SlippageModel := ⟨fun _ => 0, false, [], []⟩

/-- `SlippageModel._extract_features`. -/
def slipFeatures (d : FeatData) : Option (List ℚ) := do
  let q ← d.quantity
  let sp ← d.spread_pct
  let im ← d.imbalance
  let dr ← d.depth_ratio
  let vo ← d.volatility
  pure [q, sp, im, dr, vo]

/-- The heuristic slippage value (`base_slippage + quantity_factor *
(1 + imbalance_factor)` of `SlippageModel.calculate`). -/
def slipHeuristic (O : Oracle) (q sp im : ℚ) : ℚ :=
  sp / 2 + (0.01 * O.log1p (q / 100)) * (1 + (im - 0.5) * 0.5)

/-- The train/retrain trigger at the end of
`SlippageModel._collect_training_data` (`_train_model` sets
`is_trained`). -/
def slipMaybeTrain (O : Oracle) (st : SlippageModel) : SlippageModel :=
  let n := st.training_data_y.length
  if 100 ≤ n ∧ st.is_trained = false then
    { st with modelFn := O.fitLin st.training_data_x st.training_data_y, is_trained := true }
  else if 500 ≤ n ∧ n % 100 = 0 then
    { st with modelFn := O.fitLin st.training_data_x st.training_data_y, is_trained := true }
  else st

/-- The `try` body of `SlippageModel.calculate`: feature extraction,
heuristic, training-data collection, optional blended prediction.
`none` is a raised exception (no state was mutated before any failure
point). -/
def slipBody (O : Oracle) (st : SlippageModel) (d : FeatData) :
    Option (ℚ × SlippageModel) := do
  let q ← d.quantity
  let _mid ← d.mid_price
  let sp ← d.spread_pct
  let im ← d.imbalance
  let slip := slipHeuristic O q sp im
  let feats ← slipFeatures d
  let st1 := { st with
    training_data_x := st.training_data_x ++ [feats]
    training_data_y := st.training_data_y ++ [slip] }
  let st2 := slipMaybeTrain O st1
  let v := if st2.is_trained then 0.7 * st2.modelFn feats + 0.3 * slip else slip
  pure (max 0 v, st2)

/-- `SlippageModel.calculate`: the body under `try`, `0.01` on any
exception. -/
def SlippageModel.calculate (O : Oracle) (st : SlippageModel) (d : FeatData) :
    ℚ × SlippageModel :=
  (slipBody O st d).getD (0.01, st)

/-- State of `MakerTakerModel`. -/
structure MakerTakerModel where
  modelFn : List ℚ → ℚ
  is_trained : Bool
  training_data_x : List (List ℚ)
  training_data_y : List ℕ

/-- `MakerTakerModel.__init__`. -/
def MakerTakerModel.init : MakerTakerModel := ⟨fun _ => 0, false, [], []⟩

/-- `MakerTakerModel._extract_features`. -/
def mtFeatures (d : FeatData) : Option (List ℚ) := do
  let ot ← d.order_type
  let otn : ℚ := if ot = "market" then 0 else 1
  let q ← d.quantity
  let sp ← d.spread_pct
  let im ← d.imbalance
  let dr ← d.depth_ratio
  let vo ← d.volatility
  pure [otn, q, sp, im, dr, vo]

/-- The train/retrain trigger of `MakerTakerModel._collect_training_data`. -/
def mtMaybeTrain (O : Oracle) (st : MakerTakerModel) : MakerTakerModel :=
  let n := st.training_data_y.length
  if 100 ≤ n ∧ st.is_trained = false then
    { st with modelFn := O.fitLog st.training_data_x st.training_data_y, is_trained := true }
  else if 500 ≤ n ∧ n % 100 = 0 then
    { st with modelFn := O.fitLog st.training_data_x st.training_data_y, is_trained := true }
  else st

/-- The `try` body of `MakerTakerModel.predict`: market orders are all
taker; limit orders use the fitted classifier when available, else the
spread/quantity heuristic (whose `10 / quantity` raises on zero); then
the produced proportion is binarised and collected. -/
def mtBody (O : Oracle) (st : MakerTakerModel) (d : FeatData) :
    Option (ℚ × MakerTakerModel) := do
  let ot ← d.order_type
  let q ← d.quantity
  let sp ← d.spread_pct
  let _im ← d.imbalance
  let mp ←
    if ot = "market" then (some 0 : Option ℚ)
    else if st.is_trained then (mtFeatures d).map st.modelFn
    else do
      let qf ← pdiv 10 q
      pure (min 1 (0.5 + min 0.3 (sp / 10) + min 0.2 qf))
  let feats ← mtFeatures d
  let label : ℕ := if 1/2 < mp then 1 else 0
  let st1 := { st with
    training_data_x := st.training_data_x ++ [feats]
    training_data_y := st.training_data_y ++ [label] }
  let st2 := mtMaybeTrain O st1
  pure (mp, st2)

/-- `MakerTakerModel.predict`: the body under `try`, `0.0` (all taker)
on any exception. -/
def MakerTakerModel.predict (O : Oracle) (st : MakerTakerModel) (d : FeatData) :
    ℚ × MakerTakerModel :=
  (mtBody O st d).getD (0, st)

/-- State of `MarketImpactModel` (`sigma`, `gamma`, `eta` are instance
fields mutated on each call). -/
structure MarketImpactModel where
  sigma : ℚ
  gamma : ℚ
  eta : ℚ
deriving DecidableEq, Repr

/-- `MarketImpactModel.__init__`. -/
def MarketImpactModel.init : MarketImpactModel := ⟨0, 0.1, 1⟩

/-- `MarketImpactModel.calculate`: Almgren-Chriss style impact.  The
`try` covers the whole body, so assignments made before a `KeyError`
(first `sigma`, then `eta`) survive into the returned state while the
call yields the `0.01` default. -/
def MarketImpactModel.calculate (O : Oracle) (st : MarketImpactModel)
    (quantity price volatility : ℚ) (d : FeatData) : ℚ × MarketImpactModel :=
  let _ := price
  let st1 := { st with sigma := volatility }
  match d.bid_depth, d.ask_depth with
  | some bd, some ad =>
    let total_depth := bd + ad
    let st2 := if 0 < total_depth
      then { st1 with eta := 0.5 + min 1 (100 / total_depth) } else st1
    match d.spread_pct with
    | some sp =>
      let st3 := { st2 with gamma := 0.1 + sp / 100 }
      let daily_volume := max ((bd + ad) * 20) 1000
      let quantity_ratio := quantity / daily_volume
      let temporary_impact := st3.eta * st3.sigma * O.sqrtFn quantity_ratio
      let permanent_impact := st3.gamma * st3.sigma * quantity_ratio
      ((temporary_impact + permanent_impact) * 100, st3)
    | none => (0.01, st2)
  | _, _ => (0.01, st1)

/-- State of `FeeModel`: the active maker/taker rate pair. -/
structure FeeModel where
  maker_rate : ℚ
  taker_rate : ℚ
deriving DecidableEq, Repr

/-- `FeeModel.__init__` (default OKX VIP 0 rates). -/
def FeeModel.init : FeeModel := ⟨0.0008, 0.0010⟩

/-- The `try` body of `FeeModel.calculate`: pure arithmetic on its
arguments, with no failure point. -/
def feeBody (fm : FeeModel) (quantity price maker_proportion : ℚ) : Option ℚ :=
  let _ := price
  let trade_value := quantity
  let maker_value := trade_value * maker_proportion
  let taker_value := trade_value * (1 - maker_proportion)
  some (maker_value * fm.maker_rate + taker_value * fm.taker_rate)

/-- `FeeModel.calculate`: the body under `try`, `0.0` on any
exception. -/
def FeeModel.calculate (fm : FeeModel) (quantity price maker_proportion : ℚ) : ℚ :=
  (feeBody fm quantity price maker_proportion).getD 0

/-- State of `TradeSimulator` (`simulator.py`). -/
structure TradeSimulator where
  exchange : String
  pair : String
  order_type : String
  quantity : ℚ
  volatility : ℚ
  fee_tier : String
  orderbook : OrderBook
  slippage_model : SlippageModel
  fee_model : FeeModel
  market_impact_model : MarketImpactModel
  maker_taker_model : MakerTakerModel
  latency_history : List ℚ
  message_count : ℕ
  last_update_time : ℚ
  slippage : ℚ
  fees : ℚ
  market_impact : ℚ
  net_cost : ℚ
  maker_proportion : ℚ

/-- `TradeSimulator.__init__` with the `config.py` defaults. -/
def TradeSimulator.init : TradeSimulator where
  exchange := "OKX"
  pair := "BTC-USDT-SWAP"
  order_type := "market"
  quantity := 100
  volatility := 0.02
  fee_tier := "VIP 0"
  orderbook := .init
  slippage_model := .init
  fee_model := .init
  market_impact_model := .init
  maker_taker_model := .init
  latency_history := []
  message_count := 0
  last_update_time := 0
  slippage := 0
  fees := 0
  market_impact := 0
  net_cost := 0
  maker_proportion := 0

/-- `TradeSimulator.has_data`. -/
def TradeSimulator.has_data (s : TradeSimulator) : Bool :=
  !s.orderbook.bids.isEmpty && !s.orderbook.asks.isEmpty

/-- `TradeSimulator._run_models`: early return when the book misses a
side; otherwise build the feature dict and run the four models in
order, storing each result then the net cost.  `none` is an exception
escaping to `process_orderbook` (only the feature build can raise;
each model catches its own). -/
def runModels (O : Oracle) (s : TradeSimulator) : Option TradeSimulator :=
  if s.has_data = false then some s
  else
    match s.orderbook.get_data_for_models with
    | .error _ => none
    | .ok c =>
      let d := c.toData s.quantity s.volatility s.order_type
      let rs := SlippageModel.calculate O s.slippage_model d
      let rm := MakerTakerModel.predict O s.maker_taker_model d
      let f := FeeModel.calculate s.fee_model s.quantity c.mid_price rm.1
      let ri := MarketImpactModel.calculate O s.market_impact_model s.quantity
        c.mid_price s.volatility d
      let slippage_cost := rs.1 / 100 * s.quantity
      let impact_cost := ri.1 / 100 * s.quantity
      some { s with
        slippage := rs.1, slippage_model := rs.2
        maker_proportion := rm.1, maker_taker_model := rm.2
        fees := f
        market_impact := ri.1, market_impact_model := ri.2
        net_cost := slippage_cost + f + impact_cost }

/-- `TradeSimulator.update_latency`: append, then drop the oldest
sample while more than 100 are retained. -/
def pushLatency (hist : List ℚ) (x : ℚ) : List ℚ :=
  let h := hist ++ [x]
  if 100 < h.length then h.tail else h

/-- `TradeSimulator.process_orderbook`: book update (which never
raises), message counters, models, latency sample.  The surrounding
`try` means an exception inside the models skips the latency update but
keeps everything already assigned.  `t` is the wall-clock at entry,
`lat` the measured processing latency. -/
def processOrderbook (O : Oracle) (s : TradeSimulator) (data : Snapshot)
    (t lat : ℚ) : TradeSimulator :=
  let ob := s.orderbook.update data t
  let s1 := { s with orderbook := ob, message_count := s.message_count + 1,
                     last_update_time := t }
  match runModels O s1 with
  | some s2 => { s2 with latency_history := pushLatency s2.latency_history lat }
  | none => s1

/-- `TradeSimulator.get_mid_price`: `self.orderbook.get_mid_price() or
0.0` — the book's `None` (and a zero mid) coalesce to the numeric
`0.0`; a book-level exception propagates. -/
def TradeSimulator.get_mid_price (s : TradeSimulator) : Except Unit ℚ :=
  (s.orderbook.get_mid_price).map (fun m => m.getD 0)

/-- Equality of `Except` results is decidable componentwise (used to
evaluate the embedded accessors on concrete books). -/
instance instDecEqExcept {ε α : Type} [DecidableEq ε] [DecidableEq α] :
    DecidableEq (Except ε α)
  | .ok a, .ok b => decidable_of_iff (a = b) (by simp)
  | .error a, .error b => decidable_of_iff (a = b) (by simp)
  | .ok _, .error _ => isFalse (fun h => Except.noConfusion h)
  | .error _, .ok _ => isFalse (fun h => Except.noConfusion h)

/-!  Concrete instances used by witnesses and counterexamples. -/

/-- A trivial oracle instantiation. -/
def O0 : Oracle := ⟨fun _ => 0, fun _ => 0, fun _ _ => fun _ => 0, fun _ _ => fun _ => 0⟩

/-- An adversarial oracle whose fitted regressor predicts `-100`
everywhere (a linear regressor can extrapolate to negative values). -/
def Oneg : Oracle := ⟨fun _ => 0, fun _ => 0, fun _ _ => fun _ => -100, fun _ _ => fun _ => 0⟩

/-- A feature dict with every key missing. -/
def dNone : FeatData := ⟨none, none, none, none, none, none, none, none, none, none⟩

/-- A feature dict with every key a model reads present. -/
def dFull : FeatData :=
  ⟨some 100, some 0, some 0, some 3, some 3, some 1, some (1/2), some 0, some 0, some "limit"⟩

/-- A feature dict with every model-read key present, from explicit
values (the dict `_run_models` passes when the pipeline runs). -/
def fullFeat (m s0 sp bd ad dr im q vo : ℚ) (ot : String) : FeatData :=
  ⟨some m, some s0, some sp, some bd, some ad, some dr, some im, some q, some vo, some ot⟩

/-- One call of the slippage model on the fixed feature dict `dFull`
under the adversarial oracle, keeping only the model state. -/
def slipStep (st : SlippageModel) : SlippageModel :=
  (SlippageModel.calculate Oneg st dFull).2

/-- The slippage model state after 99 calls from fresh. -/
def slip99 : SlippageModel := slipStep^[99] SlippageModel.init

/-- A simulator whose book has an empty bid side and one ask. -/
def simEmpty : TradeSimulator :=
  { TradeSimulator.init with
    orderbook := { OrderBook.init with asks := [(PStr.num 101, PStr.num 3)] } }

/-- A snapshot whose bid side holds an unparseable price string. -/
def badSnap : Snapshot :=
  ⟨some "ts", some "OKX", some "BTC-USDT-SWAP", some [(PStr.bad, PStr.num 1)], some []⟩

/-- A snapshot installing a non-empty bid side and an empty ask side. -/
def snapAskless : Snapshot :=
  ⟨some "t", some "e", some "s", some [(PStr.num 100, PStr.num 2)], some []⟩

/-- The spec's scenario snapshot: bids [[100,2],[99,5]], asks
[[101,3],[102,4]]. -/
def snapFull : Snapshot :=
  ⟨some "t", some "e", some "s",
   some [(PStr.num 100, PStr.num 2), (PStr.num 99, PStr.num 5)],
   some [(PStr.num 101, PStr.num 3), (PStr.num 102, PStr.num 4)]⟩

/-- The feature dict `get_data_for_models` derives from the scenario
book of `snapFull`. -/
def cFull : FeatCore :=
  ⟨201/2, 1, 200/201, 7, 7, 1, 1/2, some 100, some 101,
   [(100, 101), (497/5, 507/5), (695/7, 711/7), (695/7, 711/7), (695/7, 711/7)]⟩

/-- A snapshot with two ask levels at the same price 1. -/
def dupSnap : Snapshot :=
  ⟨some "t", some "e", some "s",
   some [], some [(PStr.num 1, PStr.num 1), (PStr.num 1, PStr.num 2)]⟩

/-- A snapshot whose bid side mixes numeric and unparseable prices in a
non-descending raw order. -/
def badSortSnap : Snapshot :=
  ⟨some "t", some "e", some "s",
   some [(PStr.num 1, PStr.num 1), (PStr.bad, PStr.num 1), (PStr.num 2, PStr.num 1)],
   some []⟩

end TradeSim

namespace TradeSim

/-! ## Claim theorems -/

/-- `Except` bind on a success. -/
theorem ok_bind {ε α β : Type} (a : α) (f : α → Except ε β) :
    (Except.ok a >>= f) = f a := rfl

/-- `Except` bind on a failure. -/
theorem error_bind {ε α β : Type} (e : ε) (f : α → Except ε β) :
    (Except.error e >>= f) = Except.error e := rfl

/-- `pure` into `Except` is a success. -/
theorem pure_eq_ok {ε α : Type} (a : α) : (pure a : Except ε α) = Except.ok a := rfl

/-- `Except.map` on a success. -/
theorem emap_ok {ε α β : Type} (f : α → β) (a : α) :
    Except.map f (Except.ok a : Except ε α) = Except.ok (f a) := rfl

/-- `Except.map` on a failure. -/
theorem emap_error {ε α β : Type} (f : α → β) (e : ε) :
    Except.map f (Except.error e : Except ε α) = Except.error e := rfl

/-- C6: for every call to `MakerTakerModel.predict` whose input has
`order_type = "market"`, the returned maker proportion is exactly `0`,
for every model state (fitted or not) and all other feature values —
also when a later feature lookup fails and the `except` default `0.0`
is returned instead. -/
theorem C6_market_orders_all_taker (O : Oracle) (st : MakerTakerModel)
    (d : FeatData) (h : d.order_type = some "market") :
    (MakerTakerModel.predict O st d).1 = 0 := by
  unfold MakerTakerModel.predict mtBody
  rw [h]
  rcases hq : d.quantity with _ | q
  · simp
  rcases hsp : d.spread_pct with _ | sp
  · simp
  rcases him : d.imbalance with _ | im
  · simp
  rcases hf : mtFeatures d with _ | fs
  · simp [hf]
  · simp [hf]

/-- Witness for C6 at a concrete fitted-state call. -/
theorem C6_market_orders_all_taker_witness :
    (MakerTakerModel.predict O0
      { MakerTakerModel.init with is_trained := true }
      { dFull with order_type := some "market" }).1 = 0 :=
  C6_market_orders_all_taker O0 _ _ rfl

/-- C4: a failing model body yields the documented safe default at the
public entry point instead of an exception: slippage `0.01`, market
impact `0.01`, maker proportion `0.0`; `FeeModel.calculate`'s body is
pure rate arithmetic with no failure point (its `except` would yield
`0.0`), so it always returns the fee formula. -/
theorem C4_model_failure_defaults (O : Oracle) (sl : SlippageModel)
    (mt : MakerTakerModel) (mi : MarketImpactModel) (fm : FeeModel)
    (d1 d2 d3 : FeatData) (q p v qf pf mp : ℚ)
    (h1 : slipBody O sl d1 = none)
    (h2 : mtBody O mt d2 = none)
    (h3 : d3.bid_depth = none ∨ d3.ask_depth = none ∨ d3.spread_pct = none) :
    (SlippageModel.calculate O sl d1).1 = 0.01
    ∧ (MakerTakerModel.predict O mt d2).1 = 0
    ∧ (MarketImpactModel.calculate O mi q p v d3).1 = 0.01
    ∧ FeeModel.calculate fm qf pf mp
        = qf * mp * fm.maker_rate + qf * (1 - mp) * fm.taker_rate := by
  refine ⟨?_, ?_, ?_, ?_⟩
  · simp [SlippageModel.calculate, h1]
  · simp [MakerTakerModel.predict, h2]
  · rcases hb : d3.bid_depth with _ | bd <;> rcases ha : d3.ask_depth with _ | ad <;>
      rcases hs : d3.spread_pct with _ | sp <;>
      simp_all [MarketImpactModel.calculate]
  · simp [FeeModel.calculate, feeBody]

/-- Witness for C4: a dict with every key missing makes all three
fallible bodies fail. -/
theorem C4_model_failure_defaults_witness :
    slipBody O0 SlippageModel.init dNone = none
    ∧ (SlippageModel.calculate O0 SlippageModel.init dNone).1 = 0.01
    ∧ (MakerTakerModel.predict O0 MakerTakerModel.init dNone).1 = 0
    ∧ (MarketImpactModel.calculate O0 MarketImpactModel.init 1 1 1 dNone).1 = 0.01
    ∧ FeeModel.calculate FeeModel.init 1 1 (1/2)
        = 1 * (1/2) * FeeModel.init.maker_rate
          + 1 * (1 - 1/2) * FeeModel.init.taker_rate := by
  have h := C4_model_failure_defaults O0 SlippageModel.init MakerTakerModel.init
    MarketImpactModel.init FeeModel.init dNone dNone dNone 1 1 1 1 1 (1/2)
    rfl rfl (Or.inl rfl)
  exact ⟨rfl, h.1, h.2.1, h.2.2.1, h.2.2.2⟩

/-- C5 counterexample: with an empty bid side the `OrderBook` mid price
is the absence `none`, but the simulator-level read accessor
`TradeSimulator.get_mid_price` (`... or 0.0`) hands its consumers the
numeric default `0`, not an absence. -/
theorem C5_counterexample_accessor_numeric_default :
    simEmpty.orderbook.get_mid_price = Except.ok none
    ∧ TradeSimulator.get_mid_price simEmpty = Except.ok (0 : ℚ) :=
  ⟨rfl, rfl⟩

/-- C5 (amended): whenever either book side is empty, the `OrderBook`
mid price, spread and spread percentage are reported as the absence
`None` (not an error, not a number); the simulator-level accessor
`TradeSimulator.get_mid_price`, however, coalesces that absence to the
numeric default `0.0`. -/
theorem C5_empty_book_mid_spread_absent (b : OrderBook)
    (h : b.bids = [] ∨ b.asks = []) (s : TradeSimulator) (hs : s.orderbook = b) :
    b.get_mid_price = .ok none ∧ b.get_spread = .ok none
    ∧ b.get_spread_percentage = .ok none
    ∧ TradeSimulator.get_mid_price s = .ok 0 := by
  have hm : b.get_mid_price = .ok none := by
    rcases h with h | h
    · simp [OrderBook.get_mid_price, h]
    · rcases hb : b.bids with _ | ⟨l, ls⟩ <;> simp [OrderBook.get_mid_price, h, hb]
  have hsp : b.get_spread = .ok none := by
    rcases h with h | h
    · simp [OrderBook.get_spread, h]
    · rcases hb : b.bids with _ | ⟨l, ls⟩ <;> simp [OrderBook.get_spread, h, hb]
  refine ⟨hm, hsp, ?_, ?_⟩
  · simp [OrderBook.get_spread_percentage, hm, hsp, Except.bind, Bind.bind]
  · simp [TradeSimulator.get_mid_price, hs, hm, Except.map]

/-- Witness for C5 (amended) at the concrete empty-bid book. -/
theorem C5_empty_book_mid_spread_absent_witness :
    simEmpty.orderbook.get_mid_price = .ok none
    ∧ simEmpty.orderbook.get_spread = .ok none
    ∧ simEmpty.orderbook.get_spread_percentage = .ok none
    ∧ TradeSimulator.get_mid_price simEmpty = .ok 0 :=
  C5_empty_book_mid_spread_absent simEmpty.orderbook (Or.inl rfl) simEmpty rfl

/-- C10: `OrderBook.update` returns normally on every input (it is a
total function here, mirroring the catch-all `except`); when the bid
sort's key computation fails on an unparseable price, the fields
assigned before that point keep their new values — timestamp, exchange,
symbol and both raw side lists — while the statistics after it stay
untouched, so the book is left holding the new, unsorted lists. -/
theorem C10_update_swallows_and_is_not_atomic (b : OrderBook)
    (data : Snapshot) (t : ℚ)
    (h : ¬ (data.bids.getD b.bids).all (fun l => (parseQ l.1).isSome)) :
    (b.update data t).timestamp = data.timestamp.getD ""
    ∧ (b.update data t).exchange = data.exchange.getD ""
    ∧ (b.update data t).symbol = data.symbol.getD ""
    ∧ (b.update data t).bids = data.bids.getD b.bids
    ∧ (b.update data t).asks = data.asks.getD b.asks
    ∧ (b.update data t).update_count = b.update_count
    ∧ (b.update data t).last_update_time = b.last_update_time := by
  unfold OrderBook.update sortLv
  simp [h]

/-- Witness for C10: updating a fresh book with a snapshot holding an
unparseable bid price. -/
theorem C10_update_swallows_and_is_not_atomic_witness :
    (OrderBook.init.update badSnap 7).timestamp = "ts"
    ∧ (OrderBook.init.update badSnap 7).exchange = "OKX"
    ∧ (OrderBook.init.update badSnap 7).symbol = "BTC-USDT-SWAP"
    ∧ (OrderBook.init.update badSnap 7).bids = [(PStr.bad, PStr.num 1)]
    ∧ (OrderBook.init.update badSnap 7).asks = []
    ∧ (OrderBook.init.update badSnap 7).update_count = 0
    ∧ (OrderBook.init.update badSnap 7).last_update_time = 0 := by
  simpa using C10_update_swallows_and_is_not_atomic OrderBook.init badSnap 7 (by decide)

/-- Membership in a stable insertion. -/
theorem mem_insertOrd {r : Lv → Lv → Bool} {x z : Lv} {l : List Lv} :
    z ∈ insertOrd r x l ↔ z = x ∨ z ∈ l := by
  induction l with
  | nil => simp [insertOrd]
  | cons y ys ih =>
    unfold insertOrd
    by_cases h : r x y
    · simp [h]
    · simp [h, ih]
      tauto

/-- Stable insertion preserves pairwise order for a total transitive
relation. -/
theorem pairwise_insertOrd (r : Lv → Lv → Bool)
    (htot : ∀ a b, r a b = true ∨ r b a = true)
    (htrans : ∀ a b c, r a b = true → r b c = true → r a c = true)
    (x : Lv) (l : List Lv) (h : l.Pairwise (fun a b => r a b = true)) :
    (insertOrd r x l).Pairwise (fun a b => r a b = true) := by
  induction l with
  | nil => simp [insertOrd]
  | cons y ys ih =>
    rcases List.pairwise_cons.mp h with ⟨hy, hys⟩
    unfold insertOrd
    by_cases hxy : r x y
    · rw [if_pos hxy]
      refine List.Pairwise.cons ?_ h
      intro z hz
      rcases List.mem_cons.mp hz with rfl | hz
      · exact hxy
      · exact htrans x y z hxy (hy z hz)
    · rw [if_neg hxy]
      refine List.Pairwise.cons ?_ (ih hys)
      intro z hz
      rcases mem_insertOrd.mp hz with hzx | hz
      · rw [hzx]
        rcases htot x y with h1 | h1
        · exact absurd h1 hxy
        · exact h1
      · exact hy z hz

/-- The stable sort orders any list under a total transitive relation. -/
theorem pairwise_sortOrd (r : Lv → Lv → Bool)
    (htot : ∀ a b, r a b = true ∨ r b a = true)
    (htrans : ∀ a b c, r a b = true → r b c = true → r a c = true)
    (l : List Lv) : (sortOrd r l).Pairwise (fun a b => r a b = true) := by
  induction l with
  | nil => simp [sortOrd]
  | cons x xs ih => exact pairwise_insertOrd r htot htrans x _ ih

/-- The descending comparison is total. -/
theorem descR_total (a b : Lv) : descR a b = true ∨ descR b a = true := by
  simp only [descR, decide_eq_true_eq]
  exact le_total (keyD b) (keyD a)

/-- The descending comparison is transitive. -/
theorem descR_trans (a b c : Lv) :
    descR a b = true → descR b c = true → descR a c = true := by
  simp only [descR, decide_eq_true_eq]
  intro h1 h2
  exact le_trans h2 h1

/-- The ascending comparison is total. -/
theorem ascR_total (a b : Lv) : ascR a b = true ∨ ascR b a = true := by
  simp only [ascR, decide_eq_true_eq]
  exact le_total (keyD a) (keyD b)

/-- The ascending comparison is transitive. -/
theorem ascR_trans (a b c : Lv) :
    ascR a b = true → ascR b c = true → ascR a c = true := by
  simp only [ascR, decide_eq_true_eq]
  intro h1 h2
  exact le_trans h1 h2

/-- C2 counterexample: the claim's strict sortedness for every input
fails.  With duplicate ask prices the update leaves equal keys side by
side (not strictly ascending), and with an unparseable bid price the
sort raises, leaving the raw bid list not even non-strictly
descending. -/
theorem C2_counterexample_strict_every_input :
    ¬ (OrderBook.init.update dupSnap 1).asks.Pairwise (fun x y => keyD x < keyD y)
    ∧ ¬ (OrderBook.init.update badSortSnap 1).bids.Pairwise (fun x y => keyD y ≤ keyD x) := by
  constructor <;> decide

/-- C2 (amended): for every update whose relevant price strings all
parse, the stored bids are sorted non-strictly descending and the
stored asks non-strictly ascending by price (the stable sort keeps ties
in input order); on a parse failure the raw lists are kept as assigned. -/
theorem C2_update_sorts_sides (b : OrderBook) (data : Snapshot) (t : ℚ)
    (hb : (data.bids.getD b.bids).all (fun l => (parseQ l.1).isSome))
    (ha : (data.asks.getD b.asks).all (fun l => (parseQ l.1).isSome)) :
    (b.update data t).bids.Pairwise (fun x y => keyD y ≤ keyD x)
    ∧ (b.update data t).asks.Pairwise (fun x y => keyD x ≤ keyD y) := by
  unfold OrderBook.update sortLv
  simp only [hb, ha, if_pos]
  constructor
  · exact (pairwise_sortOrd descR descR_total descR_trans _).imp
      (by intro a b h; simpa [descR, decide_eq_true_eq] using h)
  · exact (pairwise_sortOrd ascR ascR_total ascR_trans _).imp
      (by intro a b h; simpa [ascR, decide_eq_true_eq] using h)

/-- Witness for C2 (amended): the duplicate-price snapshot sorts
cleanly. -/
theorem C2_update_sorts_sides_witness :
    (OrderBook.init.update dupSnap 1).bids.Pairwise (fun x y => keyD y ≤ keyD x)
    ∧ (OrderBook.init.update dupSnap 1).asks.Pairwise (fun x y => keyD x ≤ keyD y) :=
  C2_update_sorts_sides OrderBook.init dupSnap 1 (by decide) (by decide)

/-- C9: when the book after `process_orderbook`'s update misses a side,
`_run_models` returns before touching any model, so the whole stored
cost estimate keeps its previous values, while the message counter is
still incremented and a latency sample is still recorded. -/
theorem C9_empty_book_frame (O : Oracle) (s : TradeSimulator)
    (data : Snapshot) (t lat : ℚ)
    (h : (s.orderbook.update data t).bids = [] ∨ (s.orderbook.update data t).asks = []) :
    (processOrderbook O s data t lat).slippage = s.slippage
    ∧ (processOrderbook O s data t lat).fees = s.fees
    ∧ (processOrderbook O s data t lat).market_impact = s.market_impact
    ∧ (processOrderbook O s data t lat).net_cost = s.net_cost
    ∧ (processOrderbook O s data t lat).maker_proportion = s.maker_proportion
    ∧ (processOrderbook O s data t lat).message_count = s.message_count + 1
    ∧ (processOrderbook O s data t lat).latency_history
        = pushLatency s.latency_history lat := by
  have hd : ({ s with orderbook := s.orderbook.update data t,
                      message_count := s.message_count + 1,
                      last_update_time := t } : TradeSimulator).has_data = false := by
    rcases h with h | h <;> simp [TradeSimulator.has_data, h]
  simp only [processOrderbook, runModels, hd]
  simp

/-- Witness for C9: a snapshot that installs an empty ask side. -/
theorem C9_empty_book_frame_witness :
    (processOrderbook O0 TradeSimulator.init snapAskless 3 4).slippage
        = TradeSimulator.init.slippage
    ∧ (processOrderbook O0 TradeSimulator.init snapAskless 3 4).fees
        = TradeSimulator.init.fees
    ∧ (processOrderbook O0 TradeSimulator.init snapAskless 3 4).market_impact
        = TradeSimulator.init.market_impact
    ∧ (processOrderbook O0 TradeSimulator.init snapAskless 3 4).net_cost
        = TradeSimulator.init.net_cost
    ∧ (processOrderbook O0 TradeSimulator.init snapAskless 3 4).maker_proportion
        = TradeSimulator.init.maker_proportion
    ∧ (processOrderbook O0 TradeSimulator.init snapAskless 3 4).message_count
        = TradeSimulator.init.message_count + 1
    ∧ (processOrderbook O0 TradeSimulator.init snapAskless 3 4).latency_history
        = pushLatency TradeSimulator.init.latency_history 4 :=
  C9_empty_book_frame O0 TradeSimulator.init snapAskless 3 4 (by decide)

/-- C1: whenever the model pipeline actually runs (both updated sides
non-empty and the feature build succeeds), the stored net cost is
exactly `slippage/100 * quantity + fees + market_impact/100 * quantity`
with the values stored by that same run. -/
theorem C1_net_cost_identity (O : Oracle) (s : TradeSimulator) (data : Snapshot)
    (t lat : ℚ) (c : FeatCore)
    (hb : (s.orderbook.update data t).bids ≠ [])
    (ha : (s.orderbook.update data t).asks ≠ [])
    (hok : (s.orderbook.update data t).get_data_for_models = .ok c) :
    (processOrderbook O s data t lat).net_cost
      = (processOrderbook O s data t lat).slippage / 100
          * (processOrderbook O s data t lat).quantity
        + (processOrderbook O s data t lat).fees
        + (processOrderbook O s data t lat).market_impact / 100
          * (processOrderbook O s data t lat).quantity := by
  have hd : ({ s with orderbook := s.orderbook.update data t,
                      message_count := s.message_count + 1,
                      last_update_time := t } : TradeSimulator).has_data = true := by
    simp [TradeSimulator.has_data]
    exact ⟨hb, ha⟩
  simp only [processOrderbook, runModels, hd]
  simp [hok]

/-- Witness for C1: the spec's scenario book processed from a fresh
simulator. -/
theorem C1_net_cost_identity_witness :
    (processOrderbook O0 TradeSimulator.init snapFull 3 4).net_cost
      = (processOrderbook O0 TradeSimulator.init snapFull 3 4).slippage / 100
          * (processOrderbook O0 TradeSimulator.init snapFull 3 4).quantity
        + (processOrderbook O0 TradeSimulator.init snapFull 3 4).fees
        + (processOrderbook O0 TradeSimulator.init snapFull 3 4).market_impact / 100
          * (processOrderbook O0 TradeSimulator.init snapFull 3 4).quantity :=
  C1_net_cost_identity O0 TradeSimulator.init snapFull 3 4 cFull
    (by decide) (by decide)
    (by
      norm_num [OrderBook.update, sortLv, sortOrd, insertOrd, descR, ascR, keyD, parseQ,
        OrderBook.get_data_for_models, OrderBook.get_mid_price, OrderBook.get_spread,
        OrderBook.get_spread_percentage, OrderBook.get_depth, OrderBook.get_orderbook_imbalance,
        sumSizesE, OrderBook.get_vwap, sideVwapStr, fillStr, ok_bind, error_bind, pure_eq_ok,
        emap_ok, emap_error, min_def, List.mapM, List.mapM.loop,
        TradeSimulator.init, OrderBook.init, snapFull, cFull])


/-! ### VWAP walk lemmas (C3, C7) -/

/-- A non-positive request fills nothing and leaves the request. -/
theorem fillQ_nonpos (L : List (ℚ × ℚ)) (r : ℚ) (h : r ≤ 0) : fillQ L r = (0, r) := by
  cases L with
  | nil => rfl
  | cons l ls => simp [fillQ, h]

/-- Unfolding of the remaining quantity at a level. -/
theorem remQ_cons (l : ℚ × ℚ) (ls : List (ℚ × ℚ)) (r : ℚ) (h : ¬ r ≤ 0) :
    remQ (l :: ls) r = remQ ls (r - min r l.2) := by
  simp [remQ, fillQ, h]

/-- Unfolding of the cost at a level. -/
theorem costQ_cons (l : ℚ × ℚ) (ls : List (ℚ × ℚ)) (r : ℚ) (h : ¬ r ≤ 0) :
    costQ (l :: ls) r = min r l.2 * l.1 + costQ ls (r - min r l.2) := by
  simp [costQ, fillQ, h]

/-- A non-positive request keeps the remaining quantity unchanged. -/
theorem remQ_nonpos (L : List (ℚ × ℚ)) (r : ℚ) (h : r ≤ 0) : remQ L r = r := by
  simp [remQ, fillQ_nonpos _ _ h]

/-- A non-positive request costs nothing. -/
theorem costQ_nonpos (L : List (ℚ × ℚ)) (r : ℚ) (h : r ≤ 0) : costQ L r = 0 := by
  simp [costQ, fillQ_nonpos _ _ h]

/-- A non-positive request fills nothing. -/
theorem filledQ_nonpos (L : List (ℚ × ℚ)) (r : ℚ) (h : r ≤ 0) : filledQ L r = 0 := by
  simp [filledQ, remQ_nonpos _ _ h]

/-- Unfolding of the filled quantity at a level. -/
theorem filledQ_cons (l : ℚ × ℚ) (ls : List (ℚ × ℚ)) (r : ℚ) (h : ¬ r ≤ 0) :
    filledQ (l :: ls) r = min r l.2 + filledQ ls (r - min r l.2) := by
  simp [filledQ, remQ_cons _ _ _ h]
  ring

/-- Total size of a side is additive over its head. -/
theorem sumSize_cons (l : ℚ × ℚ) (ls : List (ℚ × ℚ)) :
    sumSize (l :: ls) = l.2 + sumSize ls := by
  simp [sumSize]

/-- Total cost of a side is additive over its head. -/
theorem sumCost_cons (l : ℚ × ℚ) (ls : List (ℚ × ℚ)) :
    sumCost (l :: ls) = l.1 * l.2 + sumCost ls := by
  simp [sumCost]

/-- A side of non-negative sizes has non-negative total size. -/
theorem sumSize_nonneg (L : List (ℚ × ℚ)) (h : ∀ l ∈ L, 0 ≤ l.2) : 0 ≤ sumSize L := by
  induction L with
  | nil => simp [sumSize]
  | cons l ls ih =>
    have h1 := h l (List.mem_cons_self l ls)
    have h2 := ih (fun x hx => h x (List.mem_cons_of_mem _ hx))
    rw [sumSize_cons]
    linarith

/-- The walk greedily fills `min(request, total size)`. -/
theorem filledQ_eq_min (L : List (ℚ × ℚ)) (r : ℚ)
    (hsz : ∀ l ∈ L, 0 ≤ l.2) (hr : 0 ≤ r) :
    filledQ L r = min r (sumSize L) := by
  induction L generalizing r with
  | nil =>
    simp only [filledQ, remQ, fillQ, sumSize, List.map_nil, List.sum_nil]
    rw [sub_self]
    exact (min_eq_right hr).symm
  | cons l ls ih =>
    have hs1 : 0 ≤ l.2 := hsz l (List.mem_cons_self _ _)
    have hs' : ∀ x ∈ ls, 0 ≤ x.2 := fun x hx => hsz x (List.mem_cons_of_mem _ hx)
    have hS' : 0 ≤ sumSize ls := sumSize_nonneg ls hs'
    rcases le_or_lt r 0 with h0 | h0
    · have hr0 : r = 0 := le_antisymm h0 hr
      subst hr0
      rw [filledQ_nonpos _ _ le_rfl, sumSize_cons]
      exact (min_eq_left (by linarith)).symm
    · rw [filledQ_cons _ _ _ (not_le.mpr h0), sumSize_cons]
      rcases le_total r l.2 with hrl | hrl
      · rw [min_eq_left hrl, sub_self, ih 0 hs' le_rfl, min_eq_left hS',
            min_eq_left (by linarith : r ≤ l.2 + sumSize ls)]
        ring
      · rw [min_eq_right hrl, ih (r - l.2) hs' (by linarith)]
        rcases le_total (r - l.2) (sumSize ls) with hc | hc
        · rw [min_eq_left hc, min_eq_left (by linarith : r ≤ l.2 + sumSize ls)]
          ring
        · rw [min_eq_right hc, min_eq_right (by linarith : l.2 + sumSize ls ≤ r)]

/-- The walk never fills a negative quantity. -/
theorem filledQ_nonneg (L : List (ℚ × ℚ)) (r : ℚ)
    (hsz : ∀ l ∈ L, 0 ≤ l.2) (hr : 0 ≤ r) : 0 ≤ filledQ L r := by
  rw [filledQ_eq_min L r hsz hr]
  exact le_min hr (sumSize_nonneg L hsz)

/-- Marginal-cost bound: filling more on a side whose prices all lie at
or above `p` costs at least `p` per extra unit. -/
theorem fill_marginal (L : List (ℚ × ℚ)) (p q1 q2 : ℚ)
    (hp : ∀ l ∈ L, p ≤ l.1) (hsz : ∀ l ∈ L, 0 ≤ l.2) (h12 : q1 ≤ q2) :
    p * (filledQ L q2 - filledQ L q1) ≤ costQ L q2 - costQ L q1 := by
  induction L generalizing q1 q2 with
  | nil =>
    show p * ((q2 - remQ [] q2) - (q1 - remQ [] q1)) ≤ costQ [] q2 - costQ [] q1
    simp [remQ, costQ, fillQ]
  | cons l ls ih =>
    have hp1 : p ≤ l.1 := hp l (List.mem_cons_self _ _)
    have hs1 : 0 ≤ l.2 := hsz l (List.mem_cons_self _ _)
    have hp' : ∀ x ∈ ls, p ≤ x.1 := fun x hx => hp x (List.mem_cons_of_mem _ hx)
    have hs' : ∀ x ∈ ls, 0 ≤ x.2 := fun x hx => hsz x (List.mem_cons_of_mem _ hx)
    rcases le_or_lt q2 0 with h2 | h2
    · have h1 : q1 ≤ 0 := le_trans h12 h2
      rw [filledQ_nonpos _ _ h1, filledQ_nonpos _ _ h2,
          costQ_nonpos _ _ h1, costQ_nonpos _ _ h2]
      simp
    rcases le_or_lt q1 0 with h1 | h1
    · have e2nn : 0 ≤ min q2 l.2 := le_min (le_of_lt h2) hs1
      have hrec : (0:ℚ) ≤ q2 - min q2 l.2 := by linarith [min_le_left q2 l.2]
      have key := ih 0 (q2 - min q2 l.2) hp' hs' hrec
      rw [filledQ_nonpos _ _ le_rfl, costQ_nonpos _ _ le_rfl] at key
      rw [filledQ_nonpos _ _ h1, costQ_nonpos _ _ h1,
          filledQ_cons _ _ _ (not_le.mpr h2), costQ_cons _ _ _ (not_le.mpr h2)]
      have hmul : p * min q2 l.2 ≤ l.1 * min q2 l.2 :=
        mul_le_mul_of_nonneg_right hp1 e2nn
      nlinarith [key]
    · have he12 : min q1 l.2 ≤ min q2 l.2 := min_le_min h12 le_rfl
      have hr12 : q1 - min q1 l.2 ≤ q2 - min q2 l.2 := by
        rcases le_total q1 l.2 with h | h
        · rw [min_eq_left h]
          have : min q2 l.2 ≤ q2 := min_le_left _ _
          linarith
        · rw [min_eq_right h, min_eq_right (le_trans h h12)]
          linarith
      have key := ih (q1 - min q1 l.2) (q2 - min q2 l.2) hp' hs' hr12
      rw [filledQ_cons _ _ _ (not_le.mpr h1), costQ_cons _ _ _ (not_le.mpr h1),
          filledQ_cons _ _ _ (not_le.mpr h2), costQ_cons _ _ _ (not_le.mpr h2)]
      have hmul : p * (min q2 l.2 - min q1 l.2) ≤ l.1 * (min q2 l.2 - min q1 l.2) :=
        mul_le_mul_of_nonneg_right hp1 (by linarith)
      nlinarith [key]

/-- Cross-multiplied VWAP monotonicity on an ascending side. -/
theorem fill_cross (L : List (ℚ × ℚ)) (q1 q2 : ℚ)
    (hsort : L.Pairwise (fun a b => a.1 ≤ b.1))
    (hsz : ∀ l ∈ L, 0 ≤ l.2) (hq1 : 0 < q1) (h12 : q1 ≤ q2) :
    costQ L q1 * filledQ L q2 ≤ costQ L q2 * filledQ L q1 := by
  induction L generalizing q1 q2 with
  | nil =>
    show costQ [] q1 * filledQ [] q2 ≤ costQ [] q2 * filledQ [] q1
    simp [costQ, fillQ]
  | cons l ls ih =>
    have hq2 : 0 < q2 := lt_of_lt_of_le hq1 h12
    rcases List.pairwise_cons.mp hsort with ⟨hhead, htail⟩
    have hs1 : 0 ≤ l.2 := hsz l (List.mem_cons_self _ _)
    have hs' : ∀ x ∈ ls, 0 ≤ x.2 := fun x hx => hsz x (List.mem_cons_of_mem _ hx)
    have hpAll : ∀ x ∈ l :: ls, l.1 ≤ x.1 := by
      intro x hx
      rcases List.mem_cons.mp hx with hx | hx
      · rw [hx]
      · exact hhead x hx
    rcases le_or_lt q1 l.2 with hcase | hcase
    · have hB := fill_marginal (l :: ls) l.1 0 q2 hpAll hsz (le_of_lt hq2)
      rw [filledQ_nonpos _ _ le_rfl, costQ_nonpos _ _ le_rfl] at hB
      rw [costQ_cons _ _ _ (not_le.mpr hq1), filledQ_cons _ _ _ (not_le.mpr hq1),
          min_eq_left hcase, sub_self, filledQ_nonpos _ _ le_rfl, costQ_nonpos _ _ le_rfl]
      nlinarith [hB, hq1]
    · have he1 : min q1 l.2 = l.2 := min_eq_right (le_of_lt hcase)
      have he2 : min q2 l.2 = l.2 := min_eq_right (le_of_lt (lt_of_lt_of_le hcase h12))
      have key := ih (q1 - l.2) (q2 - l.2) htail hs' (by linarith) (by linarith)
      have hC := fill_marginal ls l.1 (q1 - l.2) (q2 - l.2) hhead hs' (by linarith)
      have hf1 : 0 ≤ filledQ ls (q1 - l.2) := filledQ_nonneg ls _ hs' (by linarith)
      rw [costQ_cons _ _ _ (not_le.mpr hq1), filledQ_cons _ _ _ (not_le.mpr hq1),
          costQ_cons _ _ _ (not_le.mpr hq2), filledQ_cons _ _ _ (not_le.mpr hq2),
          he1, he2]
      have hC2 : l.2 * (l.1 * (filledQ ls (q2 - l.2) - filledQ ls (q1 - l.2)))
          ≤ l.2 * (costQ ls (q2 - l.2) - costQ ls (q1 - l.2)) :=
        mul_le_mul_of_nonneg_left hC hs1
      nlinarith [key, hC2]

/-- The ask-side VWAP is monotone non-decreasing in the requested
quantity on a side sorted ascending with non-negative sizes. -/
theorem sideVwapQ_mono_ask (L : List (ℚ × ℚ)) (q1 q2 : ℚ)
    (hsort : L.Pairwise (fun a b => a.1 ≤ b.1))
    (hsz : ∀ l ∈ L, 0 ≤ l.2) (hq1 : 0 < q1) (h12 : q1 ≤ q2) :
    sideVwapQ L q1 ≤ sideVwapQ L q2 := by
  have hq2 : 0 < q2 := lt_of_lt_of_le hq1 h12
  have hf1 := filledQ_eq_min L q1 hsz (le_of_lt hq1)
  have hf2 := filledQ_eq_min L q2 hsz (le_of_lt hq2)
  have hS := sumSize_nonneg L hsz
  rcases (filledQ_nonneg L q1 hsz (le_of_lt hq1)).eq_or_lt with h0 | hpos
  · have hS0 : sumSize L = 0 := by
      by_contra hne
      have hSpos : 0 < sumSize L := lt_of_le_of_ne hS (Ne.symm hne)
      have hlt : 0 < min q1 (sumSize L) := lt_min hq1 hSpos
      rw [← hf1, ← h0] at hlt
      exact lt_irrefl 0 hlt
    have hz1 : q1 - remQ L q1 = 0 := by
      have h' := h0.symm
      simpa [filledQ] using h'
    have hz2 : q2 - remQ L q2 = 0 := by
      have h' : filledQ L q2 = 0 := by
        rw [hf2, hS0]
        exact min_eq_right (le_of_lt hq2)
      simpa [filledQ] using h'
    have hc1 : ¬ remQ L q1 < q1 := fun hlt => by linarith
    have hc2 : ¬ remQ L q2 < q2 := fun hlt => by linarith
    unfold sideVwapQ
    rw [if_neg hc1, if_neg hc2]
  · have hpos2 : 0 < filledQ L q2 := by
      rw [hf2]
      rw [hf1] at hpos
      exact lt_of_lt_of_le hpos (min_le_min h12 le_rfl)
    have hd1 : 0 < q1 - remQ L q1 := by simpa [filledQ] using hpos
    have hd2 : 0 < q2 - remQ L q2 := by simpa [filledQ] using hpos2
    have hc1 : remQ L q1 < q1 := by linarith
    have hc2 : remQ L q2 < q2 := by linarith
    unfold sideVwapQ
    rw [if_pos hc1, if_pos hc2, div_le_div_iff₀ hd1 hd2]
    have hx := fill_cross L q1 q2 hsort hsz hq1 h12
    simpa [filledQ] using hx

/-- Negating prices negates the cost and keeps the remaining quantity. -/
theorem fillQ_negP (L : List (ℚ × ℚ)) (r : ℚ) :
    fillQ (negP L) r = (-(fillQ L r).1, (fillQ L r).2) := by
  induction L generalizing r with
  | nil => simp [negP, fillQ]
  | cons l ls ih =>
    have hcons : negP (l :: ls) = (-l.1, l.2) :: negP ls := rfl
    rw [hcons]
    by_cases h : r ≤ 0
    · rw [fillQ_nonpos _ _ h, fillQ_nonpos _ _ h, neg_zero]
    · simp only [fillQ, if_neg h, ih]
      rw [Prod.mk.injEq]
      exact ⟨by ring, rfl⟩

/-- Negating prices negates the side VWAP. -/
theorem sideVwapQ_negP (L : List (ℚ × ℚ)) (q : ℚ) :
    sideVwapQ (negP L) q = - sideVwapQ L q := by
  unfold sideVwapQ remQ costQ
  rw [fillQ_negP]
  by_cases h : (fillQ L q).2 < q
  · simp [h, neg_div]
  · simp [h]

/-- Negating prices turns a descending side into an ascending one. -/
theorem pairwise_negP (L : List (ℚ × ℚ)) (h : L.Pairwise (fun a b => b.1 ≤ a.1)) :
    (negP L).Pairwise (fun a b => a.1 ≤ b.1) := by
  unfold negP
  rw [List.pairwise_map]
  exact h.imp (by intro a b hh; simpa using hh)

/-- Negating prices keeps the sizes. -/
theorem sizes_negP (L : List (ℚ × ℚ)) (h : ∀ l ∈ L, 0 ≤ l.2) :
    ∀ l ∈ negP L, 0 ≤ l.2 := by
  intro l hl
  rcases List.mem_map.mp hl with ⟨x, hx, rfl⟩
  exact h x hx

/-- The bid-side VWAP is monotone non-increasing in the requested
quantity on a side sorted descending with non-negative sizes. -/
theorem sideVwapQ_anti_bid (L : List (ℚ × ℚ)) (q1 q2 : ℚ)
    (hsort : L.Pairwise (fun a b => b.1 ≤ a.1))
    (hsz : ∀ l ∈ L, 0 ≤ l.2) (hq1 : 0 < q1) (h12 : q1 ≤ q2) :
    sideVwapQ L q2 ≤ sideVwapQ L q1 := by
  have h := sideVwapQ_mono_ask (negP L) q1 q2 (pairwise_negP L hsort)
    (sizes_negP L hsz) hq1 h12
  rw [sideVwapQ_negP, sideVwapQ_negP] at h
  linarith

/-- An all-numeric side's raw walk equals the parsed walk. -/
theorem fillStr_num (L : List (ℚ × ℚ)) (r : ℚ) :
    fillStr (L.map numLv) r = .ok (fillQ L r) := by
  induction L generalizing r with
  | nil => rfl
  | cons l ls ih =>
    by_cases h : r ≤ 0
    · simp [numLv, fillStr, fillQ, parseQ, h]
    · simp [numLv, fillStr, fillQ, parseQ, h, ih, emap_ok]

/-- An all-numeric side's raw VWAP equals the parsed VWAP. -/
theorem sideVwapStr_num (L : List (ℚ × ℚ)) (q : ℚ) :
    sideVwapStr (L.map numLv) q = .ok (sideVwapQ L q) := by
  unfold sideVwapStr
  rw [fillStr_num, emap_ok]
  rfl

/-- `get_vwap` on an all-numeric book computes both parsed side VWAPs. -/
theorem get_vwap_numBook (bids asks : List (ℚ × ℚ)) (q : ℚ) :
    (numBook bids asks).get_vwap q = .ok ⟨sideVwapQ bids q, sideVwapQ asks q⟩ := by
  unfold OrderBook.get_vwap numBook
  simp [sideVwapStr_num, ok_bind, pure_eq_ok]

/-- When the total size is smaller than the request, every level is
consumed whole. -/
theorem fillQ_full (L : List (ℚ × ℚ)) (r : ℚ)
    (hsz : ∀ l ∈ L, 0 ≤ l.2) (h : sumSize L < r) :
    fillQ L r = (sumCost L, r - sumSize L) := by
  induction L generalizing r with
  | nil => simp [fillQ, sumSize, sumCost]
  | cons l ls ih =>
    have hs1 : 0 ≤ l.2 := hsz l (List.mem_cons_self _ _)
    have hs' : ∀ x ∈ ls, 0 ≤ x.2 := fun x hx => hsz x (List.mem_cons_of_mem _ hx)
    have hS' : 0 ≤ sumSize ls := sumSize_nonneg ls hs'
    rw [sumSize_cons] at h
    have hr : 0 < r := by linarith
    have he : min r l.2 = l.2 := min_eq_right (by linarith)
    have hrec := ih (r - l.2) hs' (by linarith)
    simp only [fillQ, if_neg (not_le.mpr hr), he, hrec]
    rw [sumCost_cons, sumSize_cons, Prod.mk.injEq]
    exact ⟨by ring, by ring⟩

/-- A side that cannot fully fill returns the average price of all its
levels (the `0.0` default when the side is empty of size). -/
theorem sideVwapQ_full (L : List (ℚ × ℚ)) (q : ℚ)
    (hsz : ∀ l ∈ L, 0 ≤ l.2) (h : sumSize L < q) :
    sideVwapQ L q = sumCost L / sumSize L := by
  have hfull := fillQ_full L q hsz h
  have hS := sumSize_nonneg L hsz
  unfold sideVwapQ remQ costQ
  rw [hfull]
  dsimp only
  rcases hS.eq_or_lt with hS0 | hSpos
  · rw [if_neg (by rw [← hS0]; simp)]
    rw [← hS0]
    simp
  · rw [if_pos (by linarith)]
    rw [show q - (q - sumSize L) = sumSize L by ring]

/-- C3: when a side of the book cannot fully fill the request (its
total size is below the quantity), `get_vwap` returns for that side —
ask or bid alike — the volume-weighted average over the quantity
actually filled (total cost of all consumed levels divided by the total
consumed size), not an error value. -/
theorem C3_degraded_fill_vwap (bids asks : List (ℚ × ℚ)) (q : ℚ)
    (hbz : ∀ l ∈ bids, 0 ≤ l.2) (haz : ∀ l ∈ asks, 0 ≤ l.2) :
    (sumSize asks < q →
      ((numBook bids asks).get_vwap q).map VwapRes.ask_vwap
        = .ok (sumCost asks / sumSize asks))
    ∧ (sumSize bids < q →
      ((numBook bids asks).get_vwap q).map VwapRes.bid_vwap
        = .ok (sumCost bids / sumSize bids)) := by
  constructor
  · intro h
    rw [get_vwap_numBook, emap_ok]
    show Except.ok (sideVwapQ asks q) = _
    rw [sideVwapQ_full asks q haz h]
  · intro h
    rw [get_vwap_numBook, emap_ok]
    show Except.ok (sideVwapQ bids q) = _
    rw [sideVwapQ_full bids q hbz h]

/-- Witness for C3 on both sides: the spec's degraded-fill ask (one
level of size 3 at price 101 against a request of 1000 yields VWAP 101)
next to a bid side of size 2 at price 100, also partially filled
(VWAP 100). -/
theorem C3_degraded_fill_vwap_witness :
    sumSize [((101:ℚ), (3:ℚ))] < 1000
    ∧ sumSize [((100:ℚ), (2:ℚ))] < 1000
    ∧ ((numBook [((100:ℚ), (2:ℚ))] [((101:ℚ), (3:ℚ))]).get_vwap 1000).map VwapRes.ask_vwap
        = .ok 101
    ∧ ((numBook [((100:ℚ), (2:ℚ))] [((101:ℚ), (3:ℚ))]).get_vwap 1000).map VwapRes.bid_vwap
        = .ok 100 := by
  have h := C3_degraded_fill_vwap [((100:ℚ), (2:ℚ))] [((101:ℚ), (3:ℚ))] 1000
    (by norm_num) (by norm_num)
  refine ⟨by norm_num [sumSize], by norm_num [sumSize], ?_, ?_⟩
  · rw [h.1 (by norm_num [sumSize])]
    norm_num [sumCost, sumSize]
  · rw [h.2 (by norm_num [sumSize])]
    norm_num [sumCost, sumSize]

/-- C7: holding the book fixed (bids sorted descending, asks ascending,
sizes non-negative), `get_vwap`'s ask VWAP is non-decreasing and its
bid VWAP non-increasing in the requested quantity. -/
theorem C7_vwap_monotone_in_quantity (bids asks : List (ℚ × ℚ)) (q1 q2 : ℚ)
    (hbs : bids.Pairwise (fun a b => b.1 ≤ a.1))
    (has : asks.Pairwise (fun a b => a.1 ≤ b.1))
    (hbz : ∀ l ∈ bids, 0 ≤ l.2) (haz : ∀ l ∈ asks, 0 ≤ l.2)
    (hq1 : 0 < q1) (h12 : q1 ≤ q2) :
    (numBook bids asks).get_vwap q1 = .ok ⟨sideVwapQ bids q1, sideVwapQ asks q1⟩
    ∧ (numBook bids asks).get_vwap q2 = .ok ⟨sideVwapQ bids q2, sideVwapQ asks q2⟩
    ∧ sideVwapQ asks q1 ≤ sideVwapQ asks q2
    ∧ sideVwapQ bids q2 ≤ sideVwapQ bids q1 :=
  ⟨get_vwap_numBook bids asks q1, get_vwap_numBook bids asks q2,
   sideVwapQ_mono_ask asks q1 q2 has haz hq1 h12,
   sideVwapQ_anti_bid bids q1 q2 hbs hbz hq1 h12⟩

/-- Witness for C7 at the spec's scenario book with quantities 1 and
1000. -/
theorem C7_vwap_monotone_in_quantity_witness :
    (numBook [(100, 2), (99, 5)] [(101, 3), (102, 4)]).get_vwap 1
        = .ok ⟨sideVwapQ [(100, 2), (99, 5)] 1, sideVwapQ [(101, 3), (102, 4)] 1⟩
    ∧ (numBook [(100, 2), (99, 5)] [(101, 3), (102, 4)]).get_vwap 1000
        = .ok ⟨sideVwapQ [(100, 2), (99, 5)] 1000, sideVwapQ [(101, 3), (102, 4)] 1000⟩
    ∧ sideVwapQ [(101, 3), (102, 4)] 1 ≤ sideVwapQ [(101, 3), (102, 4)] 1000
    ∧ sideVwapQ [(100, 2), (99, 5)] 1000 ≤ sideVwapQ [(100, 2), (99, 5)] 1 :=
  C7_vwap_monotone_in_quantity [(100, 2), (99, 5)] [(101, 3), (102, 4)] 1 1000
    (by norm_num [List.pairwise_cons]) (by norm_num [List.pairwise_cons])
    (by norm_num) (by norm_num) (by norm_num) (by norm_num)


/-! ### Slippage training schedule (C8) -/

/-- One slippage call on `dFull` collects the fixed feature vector and
heuristic label, then runs the train/retrain trigger. -/
theorem slipStep_eq (st : SlippageModel) :
    slipStep st = slipMaybeTrain Oneg
      ⟨st.modelFn, st.is_trained,
       st.training_data_x ++ [[0, 0, 1/2, 1, 0]],
       st.training_data_y ++ [slipHeuristic Oneg 0 0 (1/2)]⟩ := rfl

/-- Closed form of the slippage model state after `n` identical calls
on `dFull` under the adversarial oracle: samples accumulate one per
call, the model first becomes (and stays) trained at sample 100, and
every (re)fit installs the oracle's constant predictor. -/
theorem slipStep_iter (n : ℕ) :
    slipStep^[n] SlippageModel.init =
      ⟨(if 100 ≤ n then fun _ => (-100 : ℚ) else fun _ => 0), decide (100 ≤ n),
       List.replicate n [0, 0, 1/2, 1, 0],
       List.replicate n (slipHeuristic Oneg 0 0 (1/2))⟩ := by
  induction n with
  | zero => rfl
  | succ n ih =>
    rw [Function.iterate_succ_apply', ih, slipStep_eq]
    unfold slipMaybeTrain
    simp only [List.length_append, List.length_replicate, List.length_cons,
      List.length_nil, ← List.replicate_succ']
    by_cases h1 : 100 ≤ n + 1 ∧ decide (100 ≤ n) = false
    · rw [if_pos h1, SlippageModel.mk.injEq]
      refine ⟨?_, ?_, rfl, rfl⟩
      · rw [if_pos h1.1]
        rfl
      · exact (decide_eq_true h1.1).symm
    · rw [if_neg h1]
      by_cases h2 : 500 ≤ n + 1 ∧ (n + 1) % 100 = 0
      · rw [if_pos h2, SlippageModel.mk.injEq]
        have h100 : 100 ≤ n + 1 := by omega
        refine ⟨?_, ?_, rfl, rfl⟩
        · rw [if_pos h100]
          rfl
        · exact (decide_eq_true h100).symm
      · rw [if_neg h2]
        have hiff : (100 ≤ n) ↔ (100 ≤ n + 1) := by
          constructor
          · omega
          · intro hx
            rcases not_and_or.mp h1 with h | h
            · omega
            · simpa [decide_eq_false_iff_not] using h
        rw [SlippageModel.mk.injEq]
        refine ⟨?_, ?_, rfl, rfl⟩
        · rw [if_congr hiff rfl rfl]
        · exact decide_eq_decide.mpr hiff

/-- C8 counterexample: at the call that deposits sample 100 the model
fits and blends, but the returned value is the *floored* blend
`max(0, ·)` (slippage.py line 57), not the blend itself: with a fitted
regressor predicting `-100` the blend is `-70` while the call returns
`0`. -/
theorem C8_counterexample_return_is_floored_blend :
    (SlippageModel.calculate Oneg slip99 dFull).2.is_trained = true
    ∧ (SlippageModel.calculate Oneg slip99 dFull).1 = 0
    ∧ 0.7 * (SlippageModel.calculate Oneg slip99 dFull).2.modelFn [0, 0, 1/2, 1, 0]
        + 0.3 * slipHeuristic Oneg 0 0 (1/2) = -70
    ∧ (SlippageModel.calculate Oneg slip99 dFull).1
        ≠ 0.7 * (SlippageModel.calculate Oneg slip99 dFull).2.modelFn [0, 0, 1/2, 1, 0]
          + 0.3 * slipHeuristic Oneg 0 0 (1/2) := by
  have h99 : slip99 = ⟨fun _ => 0, false, List.replicate 99 [0, 0, 1/2, 1, 0],
      List.replicate 99 (slipHeuristic Oneg 0 0 (1/2))⟩ := by
    have h := slipStep_iter 99
    rw [show slip99 = slipStep^[99] SlippageModel.init from rfl, h,
        SlippageModel.mk.injEq]
    refine ⟨?_, by norm_num, rfl, rfl⟩
    rw [if_neg (by norm_num)]
  have hheur : slipHeuristic Oneg 0 0 (1/2) = 0 := by
    norm_num [slipHeuristic, Oneg]
  have hbody : SlippageModel.calculate Oneg
      (⟨fun _ => 0, false, List.replicate 99 [0, 0, 1/2, 1, 0],
        List.replicate 99 (slipHeuristic Oneg 0 0 (1/2))⟩ : SlippageModel) dFull
      = (max 0 (0.7 * (-100) + 0.3 * slipHeuristic Oneg 0 0 (1/2)),
         ⟨fun _ => -100, true,
          List.replicate 99 [0, 0, 1/2, 1, 0] ++ [[0, 0, 1/2, 1, 0]],
          List.replicate 99 (slipHeuristic Oneg 0 0 (1/2))
            ++ [slipHeuristic Oneg 0 0 (1/2)]⟩) := rfl
  rw [h99, hbody, hheur]
  refine ⟨rfl, ?_, by norm_num, ?_⟩
  · rw [show ((0.7 : ℚ) * (-100) + 0.3 * 0) = -70 by norm_num,
        max_eq_left (by norm_num : (-70 : ℚ) ≤ 0)]
  · rw [show ((0.7 : ℚ) * (-100) + 0.3 * 0) = -70 by norm_num,
        max_eq_left (by norm_num : (-70 : ℚ) ≤ 0)]
    norm_num

/-- C8 (amended): the training schedule as claimed — the regressor is
first fitted exactly when the training set reaches 100 samples, the
model never reverts to untrained, samples 101-499 keep the first fit's
parameters, and from 500 on it refits exactly at multiples of 100 — but
once fitted the value returned by `calculate` is the blend
`0.7 * prediction + 0.3 * heuristic` floored at zero
(`max(0.0, ...)`), not the raw blend. -/
theorem C8_training_schedule (O : Oracle) (st : SlippageModel)
    (m s0 sp bd ad dr im q vo : ℚ) (ot : String)
    (hinv : st.is_trained = decide (100 ≤ st.training_data_y.length)) :
    (SlippageModel.calculate O st (fullFeat m s0 sp bd ad dr im q vo ot)).2.training_data_y.length
        = st.training_data_y.length + 1
    ∧ (SlippageModel.calculate O st (fullFeat m s0 sp bd ad dr im q vo ot)).2.is_trained
        = decide (100 ≤ st.training_data_y.length + 1)
    ∧ (SlippageModel.calculate O st (fullFeat m s0 sp bd ad dr im q vo ot)).2.modelFn
        = (if st.training_data_y.length + 1 = 100
              ∨ (500 ≤ st.training_data_y.length + 1
                  ∧ (st.training_data_y.length + 1) % 100 = 0)
           then O.fitLin
              (SlippageModel.calculate O st (fullFeat m s0 sp bd ad dr im q vo ot)).2.training_data_x
              (SlippageModel.calculate O st (fullFeat m s0 sp bd ad dr im q vo ot)).2.training_data_y
           else st.modelFn)
    ∧ (SlippageModel.calculate O st (fullFeat m s0 sp bd ad dr im q vo ot)).1
        = max 0 (if 100 ≤ st.training_data_y.length + 1
            then 0.7 * (SlippageModel.calculate O st (fullFeat m s0 sp bd ad dr im q vo ot)).2.modelFn
                [q, sp, im, dr, vo] + 0.3 * slipHeuristic O q sp im
            else slipHeuristic O q sp im) := by
  have hcalc : SlippageModel.calculate O st (fullFeat m s0 sp bd ad dr im q vo ot)
      = (let st2 := slipMaybeTrain O
          ⟨st.modelFn, st.is_trained,
           st.training_data_x ++ [[q, sp, im, dr, vo]],
           st.training_data_y ++ [slipHeuristic O q sp im]⟩
         (max 0 (if st2.is_trained
            then 0.7 * st2.modelFn [q, sp, im, dr, vo] + 0.3 * slipHeuristic O q sp im
            else slipHeuristic O q sp im), st2)) := rfl
  rw [hcalc]
  set k := st.training_data_y.length with hk
  unfold slipMaybeTrain
  simp only [List.length_append, List.length_cons, List.length_nil, Nat.zero_add,
    List.length_singleton, ← hk]
  by_cases h1 : 100 ≤ k + 1 ∧ st.is_trained = false
  · have hc : k + 1 = 100 ∨ (500 ≤ k + 1 ∧ (k + 1) % 100 = 0) := by
      left
      rw [hinv, decide_eq_false_iff_not] at h1
      omega
    rw [if_pos h1, if_pos hc]
    refine ⟨by simp, ?_, rfl, ?_⟩
    · exact (decide_eq_true (by omega : 100 ≤ k + 1)).symm
    · rw [if_pos (by omega : 100 ≤ k + 1)]
      simp
  · rw [if_neg h1]
    by_cases h2 : 500 ≤ k + 1 ∧ (k + 1) % 100 = 0
    · have hc : k + 1 = 100 ∨ (500 ≤ k + 1 ∧ (k + 1) % 100 = 0) := Or.inr h2
      rw [if_pos h2, if_pos hc]
      refine ⟨by simp, ?_, rfl, ?_⟩
      · exact (decide_eq_true (by omega : 100 ≤ k + 1)).symm
      · rw [if_pos (by omega : 100 ≤ k + 1)]
        simp
    · have htr : st.is_trained = decide (100 ≤ k + 1) := by
        rw [hinv]
        rcases not_and_or.mp h1 with h | h
        · exact decide_eq_decide.mpr (by omega)
        · have h' : st.is_trained = true := by
            cases hb : st.is_trained
            · exact absurd hb h
            · rfl
          rw [hinv] at h'
          rw [decide_eq_true_eq] at h'
          exact decide_eq_decide.mpr (by omega)
      have hc : ¬ (k + 1 = 100 ∨ (500 ≤ k + 1 ∧ (k + 1) % 100 = 0)) := by
        rintro (hx | hx)
        · apply h1
          constructor
          · omega
          · rw [hinv, decide_eq_false_iff_not]
            omega
        · exact h2 hx
      rw [if_neg h2, if_neg hc]
      refine ⟨by simp, htr, rfl, ?_⟩
      dsimp only
      rw [htr]
      simp only [decide_eq_true_eq]

/-- Witness for C8 (amended): the first call on a fresh model collects
sample 1, stays untrained, keeps the initial parameters and returns the
floored heuristic. -/
theorem C8_training_schedule_witness :
    (SlippageModel.calculate O0 SlippageModel.init (fullFeat 1 1 1 1 1 1 1 1 1 "limit")).2.training_data_y.length = 1
    ∧ (SlippageModel.calculate O0 SlippageModel.init (fullFeat 1 1 1 1 1 1 1 1 1 "limit")).2.is_trained = false
    ∧ (SlippageModel.calculate O0 SlippageModel.init (fullFeat 1 1 1 1 1 1 1 1 1 "limit")).2.modelFn
        = SlippageModel.init.modelFn
    ∧ (SlippageModel.calculate O0 SlippageModel.init (fullFeat 1 1 1 1 1 1 1 1 1 "limit")).1
        = max 0 (slipHeuristic O0 1 1 1) := by
  have h := C8_training_schedule O0 SlippageModel.init 1 1 1 1 1 1 1 1 1 "limit" rfl
  simpa using h

end TradeSim
